import Mathlib

/-!
Shallow embedding of the SkynetLabs abuse-scanner pipeline (Go sources) and
proofs about the claims of its natural-language specification.

Conventions of the embedding:
* Go strings and `[]byte` values are Lean `String`s (one `Char` per byte).
* `time.Time` values are opaque `Nat` timestamps, threaded as parameters.
* Mongo documents are Lean structures; a `$set` update is modelled by the
  updated record value that the stage hands to the store.
* External HTTP/SMTP/IMAP collaborators are modelled as explicit oracle
  parameters holding the response the collaborator would give.
* A Go function that can fail returns `Except String α`; a Go function that
  can panic is wrapped in `Option` (`none` = panic).
-/

namespace AbuseScanner

/-! ## Data model (`database/abuseemail.go`, `database/reportdb.go`) -/

/-- `database.AbuseStatusBlocked`: the blocked status string. -/
def AbuseStatusBlocked : String := "BLOCKED"

/-- `database.AbuseDefaultTag`: tag used when no tags are found in the email. -/
def AbuseDefaultTag : String := "abusive"

/-- `scannerEmailAddress` (email/finalizer.go): the from address used by the
scanner when sending abuse reports. -/
def scannerEmailAddress : String := "abuse-scanner@siasky.net"

/-- `database.AbuseReporter`: information about the reporter. -/
structure AbuseReporter where
  name : String := ""
  email : String := ""
  otherContact : String := ""
deriving Repr, DecidableEq

/-- `database.AbuseReport`: the parse result of an abuse email. -/
structure AbuseReport where
  skylinks : List String := []
  reporter : AbuseReporter := {}
  sponsor : String := ""
  tags : List String := []
deriving Repr, DecidableEq

/-- `database.AbuseEmail`: an object of the `emails` collection.  Field
defaults are the Go zero values, so record literals that omit fields behave
like the Go composite literals in the source. -/
structure AbuseEmail where
  id : Nat := 0
  uid : String := ""
  uidRaw : Nat := 0
  body : String := ""
  messageID : String := ""
  subject : String := ""
  emailFrom : String := ""
  emailReplyTo : String := ""
  emailTo : String := ""
  insertedBy : String := ""
  insertedAt : Nat := 0
  skip : Bool := false
  parsed : Bool := false
  parsedAt : Nat := 0
  parsedBy : String := ""
  parseResult : AbuseReport := {}
  blocked : Bool := false
  blockedAt : Nat := 0
  blockedBy : String := ""
  blockResult : List String := []
  finalized : Bool := false
  finalizedAt : Nat := 0
  finalizedBy : String := ""
  reported : Bool := false
  reportedAt : Nat := 0
deriving Repr, DecidableEq

/-- `database.NCMECReport`: an object of the `ncmec_reports` collection. -/
structure NCMECReport where
  id : Nat := 0
  emailID : Nat := 0
  filed : Bool := false
  filedAt : Nat := 0
  filedErr : String := ""
  report : String := ""
  reportID : Nat := 0
  reportDebug : Bool := false
  insertedAt : Nat := 0
deriving Repr, DecidableEq

/-- `AbuseReport.HasTag`: whether the abuse report contains the given tag. -/
def AbuseReport.hasTag (ar : AbuseReport) (tag : String) : Bool :=
  ar.tags.contains tag

/-- Loop body of `AbuseEmail.result`: walks the skylinks of the parse result
and splits them into blocked / unblocked according to the block-result entry
at the same index.  (Go indexes `a.BlockResult[i]` and panics when the
block-result is shorter than the skylink list; every caller in the source
first guards `len(BlockResult) == len(ParseResult.Skylinks)`, so the final
clause below is unreachable in guarded contexts.) -/
def resultLoop : List String → List String → List String × List String
  | [], _ => ([], [])
  | s :: rest, r :: rrest =>
    let p := resultLoop rest rrest
    if r = AbuseStatusBlocked then (s :: p.1, p.2) else (p.1, s :: p.2)
  | _ :: _, [] => ([], [])

/-- `AbuseEmail.result`: which skylinks were blocked and which were not.  The
sanity check mirrors the `build.Critical` guard that returns `nil, nil` when
called on an email that is not parsed-and-blocked. -/
def AbuseEmail.result (a : AbuseEmail) : List String × List String :=
  if !a.parsed || !a.blocked then ([], [])
  else resultLoop a.parseResult.skylinks a.blockResult

/-- `AbuseEmail.Success`: links were found and all of them were blocked. -/
def AbuseEmail.success (a : AbuseEmail) : Bool :=
  let p := a.result
  decide (0 < p.1.length) && decide (p.2.length = 0)

/-- `AbuseEmail.ReplyToEmail` (database/abuseemail.go): address to reply to,
the reply-to header falling back to the from header when empty. -/
def AbuseEmail.replyToEmail (a : AbuseEmail) : String :=
  if a.emailReplyTo ≠ "" then a.emailReplyTo else a.emailFrom

/-- Modelled from the spec: `AbuseEmail.Sender` is called by the finalizer's
`sendAutomatedReply` but its body is not among the source files (only its
unit test and its callers are).  The spec says the SMTP auto-reply goes to
"the original reporter's reply-to (or From if reply-to is absent)", which is
also exactly what the `testSender` unit test asserts. -/
def AbuseEmail.sender (a : AbuseEmail) : String :=
  if a.emailReplyTo ≠ "" then a.emailReplyTo else a.emailFrom

/-! ## Distributed locks (`part_025`, `database/reportdb.go`)

`abuseLock` stores a resource name and a lock id; `Lock()` registers the
lock through the mongo lock client's `XLock`. -/

/-- `resourceEmails`: resource name used when locking mails. -/
def resourceEmails : String := "emails"

/-- `resourceReports`: resource name used when locking reports. -/
def resourceReports : String := "ncmec_reports"

/-- `database.abuseLock`: a lock on an entity in the abuse database. -/
structure AbuseLock where
  staticLockID : String
  staticResourceName : String
deriving Repr, DecidableEq

/-- `AbuseScannerDB.newLockCustom`: a new abuse lock for a resource with the
given id. -/
def newLockCustom (resourceName lockID : String) : AbuseLock :=
  { staticLockID := lockID, staticResourceName := resourceName }

/-- `AbuseScannerDB.NewLock`: a new abuse lock for an email with given id. -/
def newLock (lockID : String) : AbuseLock :=
  newLockCustom resourceEmails lockID

/-- `AbuseScannerDB.NewReportLock`: a lock on a report entity. -/
def newReportLock (reportID : String) : AbuseLock :=
  newLockCustom resourceReports reportID

/-- `abuseLock.Lock` registers the lock in the shared lock collection via
`client.XLock(ctx, "emails", l.staticLockID, ld)`.  This is the
`(resource, lockId)` key the lock is registered under: the source passes the
string literal `"emails"`, not `l.staticResourceName`. -/
def AbuseLock.xlockKey (l : AbuseLock) : String × String :=
  ("emails", l.staticLockID)

/-- Modelled from the spec: the registration key the spec prescribes for a
lock, namely the `(resource, id)` pair stored in the lock. -/
def AbuseLock.specLockKey (l : AbuseLock) : String × String :=
  (l.staticResourceName, l.staticLockID)

/-! ## Store query filters (`part_025`, `database/reportdb.go`)

Each `FindX` method issues a mongo `Find` with a fixed filter document; we
model the filter as the predicate a record must satisfy to be returned. -/

/-- Whether `email_uid` matches the anchored regex `^<mailbox>-` used by
`FindUnfinalized`. -/
def uidInMailbox (mailbox uid : String) : Bool :=
  (mailbox ++ "-").data.isPrefixOf uid.data

/-- Filter of `AbuseScannerDB.FindUnfinalized(mailbox)`: email uid matches
`^<mailbox>-`, parsed, blocked, and not finalized. -/
def findUnfinalizedFilter (mailbox : String) (e : AbuseEmail) : Bool :=
  uidInMailbox mailbox e.uid && e.parsed && e.blocked && !e.finalized

/-- Filter of `AbuseScannerDB.FindUnblocked`: parsed, not blocked, not
finalized. -/
def findUnblockedFilter (e : AbuseEmail) : Bool :=
  e.parsed && !e.blocked && !e.finalized

/-- Filter of `AbuseScannerDB.FindUnparsed`: not parsed, not blocked, not
finalized. -/
def findUnparsedFilter (e : AbuseEmail) : Bool :=
  !e.parsed && !e.blocked && !e.finalized

/-- Filter of `AbuseScannerDB.FindUnreported`: parsed, not reported, and the
parse result tags contain `csam`. -/
def findUnreportedFilter (e : AbuseEmail) : Bool :=
  e.parsed && !e.reported && e.parseResult.tags.contains "csam"

/-- Filter of `AbuseScannerDB.FindUnfiledReports`: not filed and an empty
filed-err (reports that failed to file are not retried automatically). -/
def findUnfiledReportsFilter (r : NCMECReport) : Bool :=
  !r.filed && r.filedErr == ""

/-! ## Blocker (`part_003`, first revision: the variant with the
size-mismatch guard and per-record locks) -/

/-- An HTTP response from the blocker API: status code, status line
(`resp.Status`, e.g. `"500 Internal Server Error"`) and body bytes. -/
structure HttpResponse where
  statusCode : Nat
  status : String
  body : String
deriving Repr, DecidableEq

/-- The outcome of one `POST /block` round-trip: either a transport error
(`http.DefaultClient.Do` failed) or a response. -/
def BlockResponse := Except String HttpResponse

/-- Response handling of the per-skylink closure in `Blocker.blockReport`:
HTTP 200/204 map to `"BLOCKED"`, any other status maps to a string embedding
the status line and the response body, a transport error maps to a string
embedding the error message. -/
def blockOutcome (resp : BlockResponse) : String :=
  match resp with
  | .error e => "failed to execute request, err: " ++ e
  | .ok r =>
    if r.statusCode = 200 ∨ r.statusCode = 204 then AbuseStatusBlocked
    else "failed to block skylink, status " ++ r.status ++ " response: " ++ r.body

/-- Final guard of `Blocker.blockReport`: sanity check that there is a result
for every skylink, otherwise error out. -/
def blockReportCheck (skylinks results : List String) :
    Except String (List String) :=
  if results.length ≠ skylinks.length then
    .error "block result not defined for every skylink"
  else .ok results

/-- `Blocker.blockReport`: block all skylinks of the given abuse report,
collecting one outcome string per skylink, then apply the sanity check.
The debug log line slices `skylink[:4]` and `skylink[len-4:]`, which panics
in Go when a skylink is shorter than 4 bytes; `none` models that panic. -/
def blockReport (oracle : String → BlockResponse) (report : AbuseReport) :
    Option (Except String (List String)) :=
  if report.skylinks.any (fun s => s.length < 4) then none
  else some (blockReportCheck report.skylinks
    (report.skylinks.map (fun s => blockOutcome (oracle s))))

/-- Tail of `Blocker.blockEmail` after `blockReport` returned: on error,
return the error without touching the record; on success, persist
`blocked`, `blocked_by`, `blocked_at` and `block_result` in one `$set`. -/
def blockEmailWith (res : Except String (List String)) (domain : String)
    (now : Nat) (e : AbuseEmail) : Except String AbuseEmail :=
  match res with
  | .error m => .error ("failed blocking skylinks in the parse result: " ++ m)
  | .ok result =>
    .ok { e with blocked := true, blockedBy := domain, blockedAt := now,
                 blockResult := result }

/-- `Blocker.blockEmail`: block the skylinks contained in the parse result of
the given email and update the record (under the email lock, which we model
as acquired). -/
def blockEmail (oracle : String → BlockResponse) (domain : String) (now : Nat)
    (e : AbuseEmail) : Option (Except String AbuseEmail) :=
  (blockReport oracle e.parseResult).map
    (fun res => blockEmailWith res domain now e)

/-! ## Finalizer (`email/finalizer.go`, third revision: the variant with the
SMTP auto-reply, the double-check under lock and the mailbox-scoped
`FindUnfinalized`) -/

/-- The collaborators `Finalizer.finalizeEmail` talks to while holding the
lock: the record a `FindOne` re-read returns, whether the IMAP `Append` of
the summary reply succeeds, and whether the SMTP send succeeds. -/
structure FinalizeDeps where
  current : AbuseEmail
  appendOk : Bool
  smtpOk : Bool

/-- Observable outcome of one `Finalizer.finalizeEmail` call: the error
returned, whether `sendAutomatedReply` was attempted and to whom, and the
record value written by the `$set` update (none = no write). -/
structure FinalizeOutcome where
  errMsg : Option String
  smtpAttempted : Bool
  smtpTo : Option String
  updated : Option AbuseEmail
deriving Repr

/-- `Finalizer.finalizeEmail`: sanity-check the block-result length, acquire
the lock, re-check `finalized` under the lock, append the summary reply via
IMAP, send the SMTP auto-reply when the email was handled successfully (an
SMTP failure is only logged), and mark the record finalized. -/
def finalizeEmail (domain : String) (now : Nat) (deps : FinalizeDeps)
    (e : AbuseEmail) : FinalizeOutcome :=
  if e.blockResult.length ≠ e.parseResult.skylinks.length then
    { errMsg := some "blockresult vs parseresult length mismatch",
      smtpAttempted := false, smtpTo := none, updated := none }
  else if deps.current.finalized then
    { errMsg := none, smtpAttempted := false, smtpTo := none, updated := none }
  else if !deps.appendOk then
    { errMsg := some "failed to send abuse report",
      smtpAttempted := false, smtpTo := none, updated := none }
  else
    { errMsg := none,
      smtpAttempted := e.success,
      smtpTo := if e.success then some e.sender else none,
      updated := some { e with finalized := true, finalizedBy := domain,
                               finalizedAt := now } }

/-! ## Fetcher (`email/fetcher.go`) -/

/-- `mailMaxBodySize`: maximum number of bytes read from an email body. -/
def mailMaxBodySize : Nat := 2 ^ 23

/-- The envelope of an IMAP message (`imap.Envelope`), with addresses
flattened to their `Address()` strings. -/
structure Envelope where
  subject : String := ""
  messageId : String := ""
  envFrom : List String := []
  envReplyTo : List String := []
  envTo : List String := []
deriving Repr, DecidableEq

/-- An IMAP message as fetched by `UidFetch`: uid, optional envelope and the
optional `BODY[]` literal. -/
structure ImapMessage where
  uid : Nat := 0
  envelope : Option Envelope := none
  body : Option String := none
deriving Repr, DecidableEq

/-- An `imap.MailboxStatus`: mailbox name and uid-validity token. -/
structure MailboxStatus where
  name : String := ""
  uidValidity : Nat := 0
deriving Repr, DecidableEq

/-- `buildMessageUID`: the composite id `<mailbox>-<validity>-<uid>`. -/
def buildMessageUID (mailbox : MailboxStatus) (msgUid : Nat) : String :=
  mailbox.name ++ "-" ++ toString mailbox.uidValidity ++ "-" ++ toString msgUid

/-- `isFromAbuseScanner`: the message has an envelope with exactly one From
address and that address is the scanner's own outgoing address. -/
def isFromAbuseScanner (msg : ImapMessage) : Bool :=
  match msg.envelope with
  | none => false
  | some env =>
    if env.envFrom.length ≠ 1 then false
    else decide (env.envFrom.headD "" = scannerEmailAddress)

/-- `hasBody`: the message carries a `BODY[]` literal. -/
def hasBody (msg : ImapMessage) : Bool :=
  msg.body.isSome

/-- `extractField`: first address of the requested envelope field, or the
empty string when the field is absent or the envelope is nil. -/
def extractField (field : String) (envelope : Option Envelope) : String :=
  match envelope with
  | none => ""
  | some env =>
    if field = "From" then env.envFrom.headD ""
    else if field = "To" then env.envTo.headD ""
    else if field = "ReplyTo" then env.envReplyTo.headD ""
    else ""

/-- `Fetcher.persistSkipMessage`: the record persisted for a message that the
pipeline must skip; all stage flags are forced terminal and `skip` is set. -/
def persistSkipMessage (mailbox : MailboxStatus) (now oid : Nat)
    (msg : ImapMessage) : AbuseEmail :=
  { id := oid,
    uid := buildMessageUID mailbox msg.uid,
    uidRaw := msg.uid,
    parsed := true,
    blocked := true,
    finalized := true,
    skip := true,
    insertedAt := now }

/-- The record `Fetcher.persistMessage` builds from a message whose body
literal is `bodyLit`: transport fields from the envelope, the body limited
to a `mailMaxBodySize` prefix, and all flags false. -/
def persistedRecord (mailbox : MailboxStatus) (domain : String) (now oid : Nat)
    (msg : ImapMessage) (bodyLit : String) : AbuseEmail :=
  { id := oid,
    uid := buildMessageUID mailbox msg.uid,
    uidRaw := msg.uid,
    body := bodyLit.take mailMaxBodySize,
    subject := (msg.envelope.map Envelope.subject).getD "",
    messageID := (msg.envelope.map Envelope.messageId).getD "",
    emailFrom := extractField "From" msg.envelope,
    emailReplyTo := extractField "ReplyTo" msg.envelope,
    emailTo := extractField "To" msg.envelope,
    parsed := false,
    blocked := false,
    finalized := false,
    insertedBy := domain,
    insertedAt := now }

/-- `Fetcher.persistMessage`: the record persisted for a regular message.
Returns `none` when the message has no body literal (the source returns an
error in that case). -/
def persistMessage (mailbox : MailboxStatus) (domain : String) (now oid : Nat)
    (msg : ImapMessage) : Option AbuseEmail :=
  match msg.body with
  | none => none
  | some bodyLit => some (persistedRecord mailbox domain now oid msg bodyLit)

/-- The admission decision taken per message in `Fetcher.fetchMessagesByUid`:
either a skip record, a regular record, or a per-message error. -/
inductive FetchAction where
  | skipRecord (e : AbuseEmail)
  | normalRecord (e : AbuseEmail)
  | failed (msg : String)
deriving Repr

/-- Per-message dispatch of `Fetcher.fetchMessagesByUid`: self-originated
messages and messages without a body are persisted as skip records, all
other messages are persisted as regular records. -/
def processMessage (mailbox : MailboxStatus) (domain : String) (now oid : Nat)
    (msg : ImapMessage) : FetchAction :=
  if isFromAbuseScanner msg then .skipRecord (persistSkipMessage mailbox now oid msg)
  else if !hasBody msg then .skipRecord (persistSkipMessage mailbox now oid msg)
  else match persistMessage mailbox domain now oid msg with
    | none => .failed "msg has no body"
    | some e => .normalRecord e

/-! ## Parser stage step (`part_013`, third revision) -/

/-- Outcome of one `Parser.parseEmail` call: either the error from
`buildAbuseReport` or the record value written by the `$set` update. -/
inductive ParseOutcome where
  | failed (msg : String)
  | wrote (updated : AbuseEmail)
deriving Repr, DecidableEq

/-- `Parser.parseEmail`: acquire the email lock, build the abuse report from
the body (`buildAbuseReport`, passed in as the oracle result `buildResult`
since body decoding goes through the external MIME library), and persist
`parsed`, `parsed_at`, `parsed_by` and `parse_result`.  There is no re-read
of the record and no check of the `parsed` flag between acquiring the lock
and writing the update. -/
def parseEmail (buildResult : Except String AbuseReport) (domain : String)
    (now : Nat) (e : AbuseEmail) : ParseOutcome :=
  match buildResult with
  | .error m => .failed ("could not parse email body: " ++ m)
  | .ok report =>
    .wrote { e with parsed := true, parsedAt := now, parsedBy := domain,
                    parseResult := report }

/-! ## Reporter (`email/reporter.go`) -/

/-- `ncmecStatusOK`: the NCMEC response code denoting success. -/
def ncmecStatusOK : Nat := 0

/-- An NCMEC API response: response code and (for `/submit`) a report id. -/
structure NCMECResponse where
  responseCode : Nat := 0
  reportId : Nat := 0
deriving Repr, DecidableEq

/-- The NCMEC round-trips `Reporter.fileReport` may perform: the result of a
`POST /submit` (`openReport`) and of a `POST /finish` (`finishReport`); an
`Except.error` is a transport failure. -/
structure NCMECOracle where
  openResp : Except String NCMECResponse
  finishResp : Except String NCMECResponse

/-- Observable outcome of one `Reporter.fileReport` call: how many `/submit`
and `/finish` calls were made, which report id `/finish` was called with,
and the final record value written (none = no write). -/
structure FileOutcome where
  submits : Nat
  finishes : Nat
  finishedId : Option Nat
  updated : Option NCMECReport
deriving Repr

/-- `Reporter.finishReport`: `POST /finish` with the record's report id; on
transport failure or non-zero response code remember the error; persist
`filed`, `filed_at`, `filed_err` and `report_id` in one `$set`. -/
def finishReport (oracle : NCMECOracle) (now : Nat) (r : NCMECReport) :
    FileOutcome :=
  let errMsg : Option String :=
    match oracle.finishResp with
    | .error e => some e
    | .ok resp =>
      if resp.responseCode ≠ ncmecStatusOK then
        some "unexpected response code when finishing report"
      else none
  { submits := 0,
    finishes := 1,
    finishedId := some r.reportID,
    updated := some { r with filed := errMsg.isNone, filedAt := now,
                             filedErr := errMsg.getD "" } }

/-- `Reporter.openReport`: `POST /submit` with the serialized report; on
transport failure or non-zero response code persist `filed_err` and return
report id 0; on success persist `filed_at` and the authority-assigned
`report_id` (the record stays unfiled). -/
def openReport (oracle : NCMECOracle) (now : Nat) (r : NCMECReport) :
    Nat × Option NCMECReport :=
  match oracle.openResp with
  | .error e => (0, some { r with filedErr := e })
  | .ok resp =>
    if resp.responseCode ≠ ncmecStatusOK then
      (0, some { r with filedErr := "unexpected response code when opening report" })
    else
      (resp.reportId, some { r with filedAt := now, reportID := resp.reportId })

/-- `Reporter.fileReport`: under the report lock, re-read the record and
return when it is already filed; when the record already carries an NCMEC
report id only `/finish` is performed; otherwise open the report first and,
if a report id was obtained, finish it. -/
def fileReport (oracle : NCMECOracle) (now : Nat) (current r : NCMECReport) :
    FileOutcome :=
  if current.filed then
    { submits := 0, finishes := 0, finishedId := none, updated := none }
  else if r.reportID ≠ 0 then
    finishReport oracle now r
  else
    let opened := openReport oracle now r
    if opened.1 = 0 then
      { submits := 1, finishes := 0, finishedId := none, updated := opened.2 }
    else
      let fin := finishReport oracle now { r with reportID := opened.1 }
      { fin with submits := 1 }

/-- Outcome of one `Reporter.buildReportsForEmail` call: skipped because the
re-read record was already reported, failed building the reports, or wrote
the given NCMEC report records and marked the email reported. -/
inductive BuildOutcome where
  | skipped
  | failed (msg : String)
  | wrote (reports : List NCMECReport) (updated : AbuseEmail)
deriving Repr

/-- `Reporter.buildReportsForEmail`: acquire the email lock, re-read the
record and skip when it is already reported; build the per-uploader reports
(the grouping round-trips are passed in as `buildInner`), insert one report
record per group, then set `reported` and `reported_at` on the email. -/
def buildReportsForEmail (buildInner : Except String (List NCMECReport))
    (now : Nat) (current e : AbuseEmail) : BuildOutcome :=
  if current.reported then .skipped
  else match buildInner with
    | .error m => .failed ("could not build reports: " ++ m)
    | .ok reports =>
      .wrote reports { e with reported := true, reportedAt := now }

/-! ## Identifier extraction (`part_013`, third revision)

`extractSkylinks` scans the input line by line and applies four regexes per
line (on the line itself and on its whitespace-stripped variant):

* `extractSkylink64RE   = .+?://.+?\..+?/([a-zA-Z0-9-_]{46})`
* `extractSkylink64RE_2 = (http.+|hxxp.+|\..+|://.+|^)([a-zA-Z0-9-_]{46})(\?.*)?$`
* `extractSkylink32RE   = (?i).+?://.*?([a-z0-9]{55})`
* `extractSkylink32RE_2 = (?i)(http.+|hxxp.+|\..+|://.+|^)([a-z0-9]{55})(\?.*)?$`

Every submatch of every match is validated with the anchored regexes
`validateSkylink64RE`/`validateSkylink32RE`, canonicalized via the external
`skymodules.Skylink` `LoadString`/`String` pair, and deduplicated.  The four
patterns are compiled by hand into position-based matchers with Go's
leftmost-first `FindAllStringSubmatch` semantics (lazy `+?` = shortest
first, greedy `+` = longest first, alternation in source order, `$` = end of
text, `^` = start of text). -/

/-- Character class `[a-zA-Z0-9-_]` of the base-64 skylink alphabet. -/
def isBase64Char (c : Char) : Bool :=
  c.isAlphanum || c == '-' || c == '_'

/-- Character class `(?i)[a-z0-9]` of the base-32 skylink alphabet. -/
def isBase32Char (c : Char) : Bool :=
  c.isAlphanum

/-- Go's regex class `\s` = `[\t\n\f\r ]`. -/
def isGoSpace (c : Char) : Bool :=
  c == '\t' || c == '\n' || c == Char.ofNat 12 || c == '\r' || c == ' '

/-- `space.ReplaceAllString(line, "")`: remove all whitespace. -/
def stripSpace (l : List Char) : List Char :=
  l.filter (fun c => !isGoSpace c)

/-- `validateSkylink64RE = ^([a-zA-Z0-9-_]{46})$`. -/
def validateSkylink64 (s : String) : Bool :=
  s.length == 46 && s.data.all isBase64Char

/-- `validateSkylink32RE = (?i)^([a-z0-9]{55})$`. -/
def validateSkylink32 (s : String) : Bool :=
  s.length == 55 && s.data.all isBase32Char

/-- `bufio.ScanLines` drops one trailing `\r` from a line; the accumulator
holds the line reversed, so the candidate `\r` sits at its head. -/
def finishLine (acc : List Char) : List Char :=
  if acc.head? = some '\r' then acc.tail.reverse else acc.reverse

/-- `bufio.Scanner` with `ScanLines`: split at every `\n` (dropping a
trailing `\r` per line); a final fragment is a line only when nonempty. -/
def splitLinesAux : List Char → List Char → List (List Char)
  | [], acc => if acc.isEmpty then [] else [finishLine acc]
  | c :: rest, acc =>
    if c = '\n' then finishLine acc :: splitLinesAux rest []
    else splitLinesAux rest (c :: acc)

/-- The characters of line `l` from position `i`, `len` characters long. -/
def window (l : List Char) (i len : Nat) : List Char :=
  (l.drop i).take len

/-- Whether the literal `p` occurs in `l` at position `i`. -/
def isPrefixAt (p l : List Char) (i : Nat) : Bool :=
  p.isPrefixOf (l.drop i)

/-- Whether the literal `p` (given lowercase) occurs case-insensitively in
`l` at position `i`. -/
def isPrefixAtCI (p l : List Char) (i : Nat) : Bool :=
  p.isPrefixOf ((l.drop i).map Char.toLower)

/-- The characters of the literal `://`. -/
def schemeChars : List Char := [':', '/', '/']

/-- The characters of the literal `http`. -/
def httpChars : List Char := ['h', 't', 't', 'p']

/-- The characters of the literal `hxxp`. -/
def hxxpChars : List Char := ['h', 'x', 'x', 'p']

/-- Matching continuation `([a-zA-Z0-9-_]{46})(\?.*)?$` from position `j`:
46 alphabet characters, then either end of text or a `?`-query running to
the end.  Returns the groups `(g2, g3)` and the end position. -/
def tail64 (l : List Char) (j : Nat) : Option (String × String × Nat) :=
  if (window l j 46).length = 46 && (window l j 46).all isBase64Char then
    if j + 46 = l.length then some (String.mk (window l j 46), "", j + 46)
    else match l.drop (j + 46) with
      | '?' :: rest => some (String.mk (window l j 46), String.mk ('?' :: rest), l.length)
      | _ => none
  else none

/-- Matching continuation `([a-z0-9]{55})(\?.*)?$` (case-insensitive) from
position `j`. -/
def tail32 (l : List Char) (j : Nat) : Option (String × String × Nat) :=
  if (window l j 55).length = 55 && (window l j 55).all isBase32Char then
    if j + 55 = l.length then some (String.mk (window l j 55), "", j + 55)
    else match l.drop (j + 55) with
      | '?' :: rest => some (String.mk (window l j 55), String.mk ('?' :: rest), l.length)
      | _ => none
  else none

/-- Group-1 alternatives of the `RE_2` patterns that end in a greedy `.+`
(`http.+`, `hxxp.+`, `\..+`, `://.+`): group 1 spans `[i, j)`; greedy means
the largest feasible `j` wins.  `jlo` is the least end admitted by the
alternative.  Returns `(end, [full, g1, g2, g3])`. -/
def alt2Try (tail : List Char → Nat → Option (String × String × Nat))
    (l : List Char) (i jlo : Nat) : Option (Nat × List String) :=
  (List.range' jlo (l.length + 1 - jlo)).reverse.findSome? fun j =>
    match tail l j with
    | some (g2, g3, e) =>
      some (e, [String.mk (window l i (e - i)), String.mk (window l i (j - i)),
                g2, g3])
    | none => none

/-- One attempt of `extractSkylink64RE_2` at start position `i`: the five
group-1 alternatives in source order, each followed by the base-64 tail. -/
def tryMatch64RE2 (l : List Char) (i : Nat) : Option (Nat × List String) :=
  (if isPrefixAt httpChars l i then alt2Try tail64 l i (i + 5) else none) <|>
  (if isPrefixAt hxxpChars l i then alt2Try tail64 l i (i + 5) else none) <|>
  (if (l.drop i).head? = some '.' then alt2Try tail64 l i (i + 2) else none) <|>
  (if isPrefixAt schemeChars l i then alt2Try tail64 l i (i + 4) else none) <|>
  (if i = 0 then
    match tail64 l 0 with
    | some (g2, g3, e) => some (e, [String.mk (window l 0 e), "", g2, g3])
    | none => none
  else none)

/-- One attempt of `extractSkylink32RE_2` at start position `i` (the literal
prefixes are case-insensitive under `(?i)`). -/
def tryMatch32RE2 (l : List Char) (i : Nat) : Option (Nat × List String) :=
  (if isPrefixAtCI httpChars l i then alt2Try tail32 l i (i + 5) else none) <|>
  (if isPrefixAtCI hxxpChars l i then alt2Try tail32 l i (i + 5) else none) <|>
  (if (l.drop i).head? = some '.' then alt2Try tail32 l i (i + 2) else none) <|>
  (if isPrefixAt schemeChars l i then alt2Try tail32 l i (i + 4) else none) <|>
  (if i = 0 then
    match tail32 l 0 with
    | some (g2, g3, e) => some (e, [String.mk (window l 0 e), "", g2, g3])
    | none => none
  else none)

/-- One attempt of `extractSkylink64RE = .+?://.+?\..+?/([a-zA-Z0-9-_]{46})`
at start position `i`: lazy quantifiers try the nearest `://`, `.` and `/`
first, with full backtracking (ascending nested search).  Returns
`(end, [full, g1])`. -/
def tryMatch64RE (l : List Char) (i : Nat) : Option (Nat × List String) :=
  (List.range' (i + 1) (l.length - i)).findSome? fun a =>
    if isPrefixAt schemeChars l a then
      (List.range' (a + 4) (l.length - a - 3)).findSome? fun b =>
        if (l.drop b).head? = some '.' then
          (List.range' (b + 2) (l.length - b - 1)).findSome? fun c =>
            if (l.drop c).head? = some '/' then
              let w := window l (c + 1) 46
              if w.length = 46 && w.all isBase64Char then
                some (c + 47, [String.mk (window l i (c + 47 - i)), String.mk w])
              else none
            else none
        else none
    else none

/-- One attempt of `extractSkylink32RE = (?i).+?://.*?([a-z0-9]{55})` at
start position `i`. -/
def tryMatch32RE (l : List Char) (i : Nat) : Option (Nat × List String) :=
  (List.range' (i + 1) (l.length - i)).findSome? fun a =>
    if isPrefixAt schemeChars l a then
      (List.range' (a + 3) (l.length + 1 - a - 3)).findSome? fun d =>
        let w := window l d 55
        if w.length = 55 && w.all isBase32Char then
          some (d + 55, [String.mk (window l i (d + 55 - i)), String.mk w])
        else none
    else none

/-- `FindAllStringSubmatch(s, -1)`: repeatedly take the leftmost match at or
after `pos` and continue after it (or one past it for an empty match).  The
fuel starts at `l.length + 1` and bounds the number of matches. -/
def findAllAux (tryM : List Char → Nat → Option (Nat × List String))
    (l : List Char) : Nat → Nat → List (List String)
  | 0, _ => []
  | fuel + 1, pos =>
    match (List.range' pos (l.length + 1 - pos)).findSome?
        (fun i => (tryM l i).map (fun r => (i, r))) with
    | none => []
    | some (i, e, subs) =>
      subs :: findAllAux tryM l fuel (if i < e then e else i + 1)

/-- All matches (submatch lists) of a pattern on a line. -/
def findAll (tryM : List Char → Nat → Option (Nat × List String))
    (l : List Char) : List (List String) :=
  findAllAux tryM l (l.length + 1) 0

/-- Validation applied to every submatch in `extractSkylinks`: keep it when
either anchored validation regex accepts it. -/
def validOk (s : String) : Bool :=
  validateSkylink64 s || validateSkylink32 s

/-- The validated submatches collected from one line variant: base-64
matches (`RE` then `RE_2`) before base-32 matches (`RE` then `RE_2`),
submatches in group order. -/
def variantCandidates (l : List Char) : List String :=
  let base64matches := findAll tryMatch64RE l ++ findAll tryMatch64RE2 l
  let base32matches := findAll tryMatch32RE l ++ findAll tryMatch32RE2 l
  ((base64matches ++ base32matches).map (fun ms => ms.filter validOk)).flatten

/-- The validated submatches collected from one line: the line itself, then
its whitespace-stripped variant. -/
def lineCandidates (l : List Char) : List String :=
  variantCandidates l ++ variantCandidates (stripSpace l)

/-- `dedupe`'s loop: keep the first occurrence of each value, tracking seen
values (the Go `map[string]struct{}` is modelled by the list of keys). -/
def dedupeAux : List String → List String → List String
  | [], _ => []
  | v :: rest, seen =>
    if seen.contains v then dedupeAux rest seen
    else v :: dedupeAux rest (v :: seen)

/-- `dedupe`: deduplicate the given slice preserving first-seen order. -/
def dedupe (input : List String) : List String :=
  if input.isEmpty then input else dedupeAux input []

/-- `extractSkylinks`: extract all skylinks from the given byte slice.  The
external `skymodules.Skylink` canonicalization (`LoadString` followed by
`String()`) is the parameter `canon`: `none` models a `LoadString` error,
`some t` the canonical re-serialization. -/
def extractSkylinks (canon : String → Option String) (input : String) :
    List String :=
  let maybeSkylinks := ((splitLinesAux input.data []).map lineCandidates).flatten
  dedupe (maybeSkylinks.filterMap canon)

/-- The text formed by a list of identifiers, one per line. -/
def joinLines : List String → String
  | [] => ""
  | [s] => s
  | s :: rest => s ++ "\n" ++ joinLines rest

/-- What the spec guarantees about the external canonicalizer's outputs: a
canonical identifier is 46 characters of the base-64 alphabet (Form A) and
re-canonicalizes to itself. -/
def CanonicalSkylink (canon : String → Option String) (t : String) : Prop :=
  t.length = 46 ∧ t.data.all isBase64Char = true ∧ canon t = some t

/-- The canonicalizer used by concrete witnesses: accept exactly the strings
the anchored base-64 validation regex accepts, unchanged. -/
def canonId (s : String) : Option String :=
  if validateSkylink64 s then some s else none

/-! ## Concrete sample values used by witnesses and counterexamples -/

/-- A canonical Form-A skylink (46 characters of `[a-zA-Z0-9-_]`), taken
from the repository's parser tests. -/
def sampleSkylink : String := "GAEE7l0IkIVcVEHDgRCcNkRYS8keZKr9v_ffxf9_614m6g"

/-- A 204 No Content response of the blocker API. -/
def resp204 : HttpResponse :=
  { statusCode := 204, status := "204 No Content", body := "" }

/-- A 500 response of the blocker API. -/
def resp500 : HttpResponse :=
  { statusCode := 500, status := "500 Internal Server Error", body := "bad skylink" }

/-- A blocker API that answers 204 to every block request. -/
def okOracle : String → BlockResponse := fun _ => .ok resp204

/-- A parsed-and-blocked csam-tagged email that has not been reported. -/
def eCsam : AbuseEmail :=
  { uid := "INBOX-1577-42", parsed := true, blocked := true,
    reported := false, parseResult := { tags := ["csam"] } }

/-- The csam email after another host marked it reported. -/
def eCsamReported : AbuseEmail := { eCsam with reported := true }

/-- A parsed-and-blocked email with one successfully blocked skylink. -/
def eBlockedOk : AbuseEmail :=
  { uid := "INBOX-1577-7", parsed := true, blocked := true,
    emailFrom := "someone@gmail.com",
    parseResult := { skylinks := [sampleSkylink] },
    blockResult := ["BLOCKED"] }

/-- An email record whose `parsed` flag is already set. -/
def eParsedAlready : AbuseEmail := { uid := "INBOX-1577-9", parsed := true }

/-- A parse result tagged phishing with one skylink. -/
def phishingReport : AbuseReport :=
  { skylinks := [sampleSkylink], tags := ["phishing"] }

/-- A regular incoming message with envelope and body. -/
def sampleMsg : ImapMessage :=
  { uid := 42,
    envelope := some { subject := "Abuse Subject", messageId := "<msg>@gmail.com",
                       envFrom := ["someone@gmail.com"], envReplyTo := [],
                       envTo := ["abuse@siasky.net"] },
    body := some "some body" }

/-- A message sent by the scanner itself. -/
def selfMsg : ImapMessage :=
  { uid := 43,
    envelope := some { envFrom := ["abuse-scanner@siasky.net"] },
    body := some "some body" }

/-- A sample selected mailbox. -/
def sampleMailbox : MailboxStatus := { name := "INBOX", uidValidity := 1577 }

/-- An NCMEC API that accepts both calls. -/
def sampleNCMECOracle : NCMECOracle :=
  { openResp := .ok { responseCode := 0, reportId := 99 },
    finishResp := .ok { responseCode := 0 } }

/-- A report record persisted after phase A: unfiled but with a report id. -/
def openedReport : NCMECReport := { id := 5, reportID := 321 }

/-- A report record whose phase-A filing failed. -/
def erroredReport : NCMECReport := { id := 6, filedErr := "validation failed" }

/-! ## Helper lemmas -/

theorem findSome_none {α β : Type} (f : α → Option β) :
    ∀ l : List α, (∀ x ∈ l, f x = none) → l.findSome? f = none := by
  intro l h
  induction l with
  | nil => rfl
  | cons a t ih =>
    rw [List.findSome?_cons, h a (List.mem_cons_self a t)]
    exact ih fun x hx => h x (List.mem_cons_of_mem a hx)

theorem resultLoop_length : ∀ sk br : List String, br.length = sk.length →
    (resultLoop sk br).1.length + (resultLoop sk br).2.length = sk.length := by
  intro sk
  induction sk with
  | nil => intro br _; simp [resultLoop]
  | cons s rest ih =>
    intro br h
    match br with
    | [] => simp at h
    | r :: rrest =>
      have ihr := ih rrest (by simpa using h)
      by_cases hr : r = AbuseStatusBlocked <;> simp [resultLoop, hr] <;> omega

theorem resultLoop_unblocked_nil : ∀ sk br : List String, br.length = sk.length →
    ((resultLoop sk br).2 = [] ↔ ∀ r ∈ br, r = AbuseStatusBlocked) := by
  intro sk
  induction sk with
  | nil =>
    intro br h
    match br with
    | [] => simp [resultLoop]
    | r :: rrest => simp at h
  | cons s rest ih =>
    intro br h
    match br with
    | [] => simp at h
    | r :: rrest =>
      have ihr := ih rrest (by simpa using h)
      by_cases hr : r = AbuseStatusBlocked <;> simp [resultLoop, hr, ihr]

theorem success_iff (e : AbuseEmail) (hp : e.parsed = true) (hb : e.blocked = true)
    (hlen : e.blockResult.length = e.parseResult.skylinks.length) :
    e.success = true ↔
      (e.parseResult.skylinks ≠ [] ∧ ∀ r ∈ e.blockResult, r = AbuseStatusBlocked) := by
  have hres : e.result = resultLoop e.parseResult.skylinks e.blockResult := by
    simp [AbuseEmail.result, hp, hb]
  have hL := resultLoop_length e.parseResult.skylinks e.blockResult hlen
  have hU := resultLoop_unblocked_nil e.parseResult.skylinks e.blockResult hlen
  constructor
  · intro hs
    simp only [AbuseEmail.success, hres, Bool.and_eq_true, decide_eq_true_eq] at hs
    obtain ⟨hpos, hzero⟩ := hs
    have hnil : (resultLoop e.parseResult.skylinks e.blockResult).2 = [] :=
      List.length_eq_zero.mp hzero
    refine ⟨?_, hU.mp hnil⟩
    intro hsk
    have hsl : e.parseResult.skylinks.length = 0 := by rw [hsk]; rfl
    omega
  · intro ⟨hsk, hall⟩
    have hnil := hU.mpr hall
    simp only [AbuseEmail.success, hres, Bool.and_eq_true, decide_eq_true_eq]
    rw [hnil] at hL ⊢
    simp at hL ⊢
    have : e.parseResult.skylinks.length ≠ 0 := by
      intro hz
      exact hsk (List.length_eq_zero.mp hz)
    omega

/-! ## Claim theorems -/

/-- C2: the spec says a lock is keyed by its `(resource, id)` pair and that
`abuseLock.Lock` registers the lock under the resource name stored in the
lock.  The code passes the string literal `"emails"` to `XLock` instead of
`l.staticResourceName`, so a report lock and an email lock with the same id
register under the same `("emails", id)` key even though their stored
resource names differ: the field `staticResourceName` is written but never
read, which marks the hard-coded literal as a slip. -/
theorem lock_resource_hardcoded : AbuseScanner.AbuseLock.xlockKey (newReportLock "X")
      = AbuseScanner.AbuseLock.xlockKey (newLock "X")
    ∧ (newReportLock "X").staticResourceName ≠ (newLock "X").staticResourceName
    ∧ AbuseScanner.AbuseLock.specLockKey (newReportLock "X")
      ≠ AbuseScanner.AbuseLock.specLockKey (newLock "X") := by
  refine ⟨rfl, ?_, ?_⟩ <;> decide

/-- C3: the blocker persists `blocked=true` only together with a
block-result of the same length as the identifier list: the sanity check
errors out on a length mismatch, an erroring `blockReport` makes
`blockEmail` return the error without producing an update, and every
successful update carries `blocked=true` with a length-matching
block-result. -/
theorem blocker_size_guard (oracle : String → BlockResponse) (domain : String)
    (now : Nat) (e : AbuseEmail) :
    (∀ skylinks results : List String, results.length ≠ skylinks.length →
      blockReportCheck skylinks results =
        .error "block result not defined for every skylink")
    ∧ (∀ m : String, ∀ e' : AbuseEmail,
        blockEmailWith (.error m) domain now e ≠ .ok e')
    ∧ (∀ e' : AbuseEmail, blockEmail oracle domain now e = some (.ok e') →
        e'.blocked = true
        ∧ e'.blockResult.length = e'.parseResult.skylinks.length) := by
  refine ⟨?_, ?_, ?_⟩
  · intro skylinks results h
    simp [blockReportCheck, h]
  · intro m e'
    simp [blockEmailWith]
  · intro e' h
    rw [blockEmail, blockReport] at h
    by_cases hpanic : e.parseResult.skylinks.any (fun s => s.length < 4)
    · rw [if_pos hpanic] at h
      simp at h
    · rw [if_neg hpanic] at h
      rw [blockReportCheck, if_neg (by simp)] at h
      simp only [Option.map_some', Option.some.injEq] at h
      rw [blockEmailWith] at h
      simp only [Except.ok.injEq] at h
      subst h
      simp

/-- Witness for C3 at a one-skylink report and a concrete mismatching
result list. -/
theorem blocker_size_guard_witness :
    blockReportCheck [sampleSkylink] [] =
        .error "block result not defined for every skylink"
    ∧ ({ eBlockedOk with
          blocked := true, blockedAt := 0, blockedBy := "dev.siasky.net",
          blockResult := [AbuseStatusBlocked] } : AbuseEmail).blocked = true
    ∧ ({ eBlockedOk with
          blocked := true, blockedAt := 0, blockedBy := "dev.siasky.net",
          blockResult := [AbuseStatusBlocked] } : AbuseEmail).blockResult.length
        = ({ eBlockedOk with
          blocked := true, blockedAt := 0, blockedBy := "dev.siasky.net",
          blockResult := [AbuseStatusBlocked] } : AbuseEmail).parseResult.skylinks.length :=
  ⟨(blocker_size_guard okOracle "dev.siasky.net" 0 eBlockedOk).1
      [sampleSkylink] [] (by decide),
   ((blocker_size_guard okOracle "dev.siasky.net" 0 eBlockedOk).2.2 _ rfl).1,
   ((blocker_size_guard okOracle "dev.siasky.net" 0 eBlockedOk).2.2 _ rfl).2⟩

/-- C4: per identifier the recorded outcome is `"BLOCKED"` exactly when the
blocking service answered 200 or 204; any other status yields a string
embedding the status line and the response body; a transport error yields a
string embedding the error message. -/
theorem blockOutcome_cases (resp : BlockResponse) :
    (blockOutcome resp = AbuseStatusBlocked ↔
      ∃ r : HttpResponse, resp = .ok r ∧ (r.statusCode = 200 ∨ r.statusCode = 204))
    ∧ (∀ r : HttpResponse, resp = .ok r →
        ¬(r.statusCode = 200 ∨ r.statusCode = 204) →
        blockOutcome resp =
          "failed to block skylink, status " ++ r.status ++ " response: " ++ r.body)
    ∧ (∀ msg : String, resp = .error msg →
        blockOutcome resp = "failed to execute request, err: " ++ msg) := by
  have hlen7 : AbuseStatusBlocked.length = 7 := rfl
  refine ⟨?_, ?_, ?_⟩
  · constructor
    · intro h
      match resp with
      | .error msg =>
        exfalso
        simp only [blockOutcome] at h
        have := congrArg String.length h
        rw [String.length_append, hlen7] at this
        have h32 : ("failed to execute request, err: " : String).length = 32 := rfl
        omega
      | .ok r =>
        simp only [blockOutcome] at h
        by_cases hst : r.statusCode = 200 ∨ r.statusCode = 204
        · exact ⟨r, rfl, hst⟩
        · exfalso
          rw [if_neg hst] at h
          have := congrArg String.length h
          rw [String.length_append, String.length_append, String.length_append,
            hlen7] at this
          have h32 : ("failed to block skylink, status " : String).length = 32 := rfl
          have h11 : (" response: " : String).length = 11 := rfl
          omega
    · intro ⟨r, hr, hst⟩
      rw [hr]
      simp [blockOutcome, hst]
  · intro r hr hst
    rw [hr]
    simp [blockOutcome, hst]
  · intro msg hmsg
    rw [hmsg]
    rfl

/-- Witness for C4 at a 204 response, a 500 response and a transport
error. -/
theorem blockOutcome_cases_witness :
    blockOutcome (.ok resp204) = AbuseStatusBlocked
    ∧ blockOutcome (.ok resp500)
        = "failed to block skylink, status " ++ resp500.status
          ++ " response: " ++ resp500.body
    ∧ blockOutcome (.error "dial tcp: connection refused")
        = "failed to execute request, err: " ++ "dial tcp: connection refused" :=
  ⟨(blockOutcome_cases (.ok resp204)).1.mpr ⟨_, rfl, Or.inr rfl⟩,
   (blockOutcome_cases (.ok resp500)).2.1 _ rfl (by decide),
   (blockOutcome_cases (.error "dial tcp: connection refused")).2.2 _ rfl⟩

/-- C10 counterexample: `blockReport` evaluates `skylink[:4]` in a debug log
line, which panics in Go when a skylink is shorter than 4 bytes, so for the
report `⟨skylinks := ["abc"]⟩` the call does not return a nil error together
with a one-entry result: it does not return at all. -/
theorem blockReport_short_skylink_panics :
    blockReport okOracle { skylinks := ["abc"] } = none := rfl

/-- C10 (amended): for every abuse report whose skylinks are at least 4
bytes long — which holds for every parse result the parser produces, since
canonical identifiers have 46 characters — `blockReport` appends exactly one
outcome per skylink in order, never hits its length-mismatch error branch,
and returns a nil error with a result of the same length as the skylink
list, including the empty result for an empty skylink list. -/
theorem blockReport_total (oracle : String → BlockResponse) (report : AbuseReport)
    (h : ∀ s ∈ report.skylinks, 4 ≤ s.length) :
    blockReport oracle report =
      some (.ok (report.skylinks.map (fun s => blockOutcome (oracle s))))
    ∧ (report.skylinks.map (fun s => blockOutcome (oracle s))).length
        = report.skylinks.length := by
  have hpanic : report.skylinks.any (fun s => s.length < 4) = false := by
    rw [List.any_eq_false]
    intro s hs
    simp only [decide_eq_true_eq, Nat.not_lt]
    exact h s hs
  refine ⟨?_, by simp⟩
  simp only [blockReport, hpanic, Bool.false_eq_true, if_false]
  rw [blockReportCheck]
  simp

/-- Witness for C10 (amended) at the empty report and at a one-skylink
report answered with 204. -/
theorem blockReport_total_witness :
    blockReport okOracle {} = some (.ok [])
    ∧ blockReport okOracle { skylinks := [sampleSkylink] }
        = some (.ok [AbuseStatusBlocked]) := by
  have h1 := (blockReport_total okOracle {} (by intro s hs; simp at hs)).1
  have h2 := (blockReport_total okOracle { skylinks := [sampleSkylink] }
    (by intro s hs; simp [sampleSkylink] at hs; rw [hs]; decide)).1
  exact ⟨h1, h2⟩

/-- C1 counterexample: neither `FindUnfinalized` nor `finalizeEmail`
consults `reported` or the csam tag, so a parsed-and-blocked csam-tagged
email whose `reported` flag is still false is selected by the finalizer and
marked `finalized=true`, contradicting the readiness predicate the spec
states. -/
theorem finalizer_finalizes_unreported_csam :
    findUnfinalizedFilter "INBOX" eCsam = true
    ∧ eCsam.parseResult.tags.contains "csam" = true
    ∧ eCsam.reported = false
    ∧ (finalizeEmail "dev.siasky.net" 7
        { current := eCsam, appendOk := true, smtpOk := true } eCsam).updated.map
          AbuseEmail.finalized = some true := by
  refine ⟨by decide, by decide, rfl, ?_⟩
  rfl

/-- C1 (amended): the readiness predicate the finalizer actually enforces is
`parsed=true AND blocked=true AND finalized=false` plus the composite id
belonging to the configured source mailbox; there is no csam/reported
condition.  Every record the finalizer writes is parsed, blocked and
finalized, and is written only when the re-read under the lock still shows
`finalized=false`. -/
theorem finalizer_readiness (mailbox domain : String) (now : Nat)
    (deps : FinalizeDeps) (e : AbuseEmail)
    (hsel : findUnfinalizedFilter mailbox e = true) :
    e.parsed = true ∧ e.blocked = true ∧ e.finalized = false
    ∧ uidInMailbox mailbox e.uid = true
    ∧ (∀ e', (finalizeEmail domain now deps e).updated = some e' →
        deps.current.finalized = false
        ∧ e'.parsed = true ∧ e'.blocked = true ∧ e'.finalized = true) := by
  simp only [findUnfinalizedFilter, Bool.and_eq_true, Bool.not_eq_true'] at hsel
  obtain ⟨⟨⟨huid, hp⟩, hb⟩, hf⟩ := hsel
  refine ⟨hp, hb, hf, huid, ?_⟩
  intro e' h
  rw [finalizeEmail] at h
  by_cases hlen : e.blockResult.length ≠ e.parseResult.skylinks.length
  · rw [if_pos hlen] at h; simp at h
  · rw [if_neg hlen] at h
    by_cases hcur : deps.current.finalized = true
    · rw [if_pos hcur] at h; simp at h
    · rw [if_neg hcur] at h
      by_cases happ : deps.appendOk = true
      · rw [if_neg (by simp [happ])] at h
        simp only [Option.some.injEq] at h
        subst h
        exact ⟨Bool.not_eq_true _ ▸ hcur, hp, hb, rfl⟩
      · rw [if_pos (by simp [Bool.not_eq_true] at happ ⊢; exact happ)] at h
        simp at h

/-- Witness for C1 (amended) at a concrete selected email. -/
theorem finalizer_readiness_witness :
    eBlockedOk.parsed = true ∧ eBlockedOk.blocked = true
    ∧ eBlockedOk.finalized = false
    ∧ uidInMailbox "INBOX" eBlockedOk.uid = true
    ∧ (∀ e', (finalizeEmail "dev.siasky.net" 7
        { current := eBlockedOk, appendOk := true, smtpOk := true }
          eBlockedOk).updated = some e' →
        eBlockedOk.finalized = false
        ∧ e'.parsed = true ∧ e'.blocked = true ∧ e'.finalized = true) :=
  finalizer_readiness "INBOX" "dev.siasky.net" 7
    { current := eBlockedOk, appendOk := true, smtpOk := true } eBlockedOk
    (by decide)

/-- C5: during finalization the SMTP auto-reply is attempted if and only if
the parse result holds at least one identifier and every block-result entry
is `"BLOCKED"`; the reply goes to the reply-to address (falling back to
From); and the record is marked finalized regardless of the SMTP outcome
(an SMTP failure is only logged).  The recipient comes from
`AbuseEmail.sender`, modelled from the spec because the method body is not
among the source files. -/
theorem finalizer_smtp_reply (domain : String) (now : Nat) (deps : FinalizeDeps)
    (e : AbuseEmail) (hp : e.parsed = true) (hb : e.blocked = true)
    (hlen : e.blockResult.length = e.parseResult.skylinks.length)
    (hcur : deps.current.finalized = false) (happ : deps.appendOk = true) :
    ((finalizeEmail domain now deps e).smtpAttempted = true ↔
      (e.parseResult.skylinks ≠ [] ∧ ∀ r ∈ e.blockResult, r = AbuseStatusBlocked))
    ∧ ((finalizeEmail domain now deps e).smtpAttempted = true →
        (finalizeEmail domain now deps e).smtpTo =
          some (if e.emailReplyTo ≠ "" then e.emailReplyTo else e.emailFrom))
    ∧ (finalizeEmail domain now deps e).updated.map AbuseEmail.finalized
        = some true := by
  have hout : finalizeEmail domain now deps e =
      { errMsg := none, smtpAttempted := e.success,
        smtpTo := if e.success then some e.sender else none,
        updated := some { e with finalized := true, finalizedBy := domain,
                                 finalizedAt := now } } := by
    rw [finalizeEmail, if_neg (by omega), if_neg (by simp [hcur]),
      if_neg (by simp [happ])]
  rw [hout]
  refine ⟨?_, ?_, rfl⟩
  · exact success_iff e hp hb hlen
  · intro hs
    simp only at hs
    simp [hs, AbuseEmail.sender]

/-- Witness for C5 at a fully successful email: the SMTP reply is attempted
and goes to the From address. -/
theorem finalizer_smtp_reply_witness :
    (((finalizeEmail "dev.siasky.net" 7
        { current := eBlockedOk, appendOk := true, smtpOk := false }
        eBlockedOk).smtpAttempted = true) ↔
      (eBlockedOk.parseResult.skylinks ≠ []
        ∧ ∀ r ∈ eBlockedOk.blockResult, r = AbuseStatusBlocked))
    ∧ ((finalizeEmail "dev.siasky.net" 7
        { current := eBlockedOk, appendOk := true, smtpOk := false }
        eBlockedOk).smtpAttempted = true →
       (finalizeEmail "dev.siasky.net" 7
        { current := eBlockedOk, appendOk := true, smtpOk := false }
        eBlockedOk).smtpTo =
          some (if eBlockedOk.emailReplyTo ≠ "" then eBlockedOk.emailReplyTo
                else eBlockedOk.emailFrom))
    ∧ (finalizeEmail "dev.siasky.net" 7
        { current := eBlockedOk, appendOk := true, smtpOk := false }
        eBlockedOk).updated.map AbuseEmail.finalized = some true :=
  finalizer_smtp_reply "dev.siasky.net" 7
    { current := eBlockedOk, appendOk := true, smtpOk := false } eBlockedOk
    rfl rfl (by decide) rfl rfl

/-- C6: a new mailbox message whose envelope has exactly one From address
equal to the scanner's own outgoing address, or which has no body, is
persisted with `skip=true` and `parsed=blocked=finalized=true`; any other
message is persisted with all four flags false, its transport fields set
from the envelope and its body limited to an 8 MiB prefix. -/

theorem fetcher_admission (mailbox : MailboxStatus) (domain : String)
    (now oid : Nat) (msg : ImapMessage) :
    ((isFromAbuseScanner msg = true ∨ hasBody msg = false) →
      processMessage mailbox domain now oid msg =
        .skipRecord (persistSkipMessage mailbox now oid msg)
      ∧ (persistSkipMessage mailbox now oid msg).skip = true
      ∧ (persistSkipMessage mailbox now oid msg).parsed = true
      ∧ (persistSkipMessage mailbox now oid msg).blocked = true
      ∧ (persistSkipMessage mailbox now oid msg).finalized = true)
    ∧ (∀ b : String, isFromAbuseScanner msg = false → msg.body = some b →
        ∃ rec, processMessage mailbox domain now oid msg = .normalRecord rec
        ∧ rec.skip = false ∧ rec.parsed = false ∧ rec.blocked = false
        ∧ rec.finalized = false
        ∧ rec.body = b.take mailMaxBodySize
        ∧ rec.uid = buildMessageUID mailbox msg.uid
        ∧ rec.subject = (msg.envelope.map Envelope.subject).getD ""
        ∧ rec.messageID = (msg.envelope.map Envelope.messageId).getD ""
        ∧ rec.emailFrom = extractField "From" msg.envelope
        ∧ rec.emailReplyTo = extractField "ReplyTo" msg.envelope
        ∧ rec.emailTo = extractField "To" msg.envelope
        ∧ rec.insertedBy = domain) := by
  constructor
  · intro h
    refine ⟨?_, rfl, rfl, rfl, rfl⟩
    rw [processMessage]
    rcases h with h | h
    · rw [if_pos h]
    · by_cases hfrom : isFromAbuseScanner msg = true
      · rw [if_pos hfrom]
      · rw [if_neg hfrom, if_pos (by simp [h])]
  · intro b hfrom hbody
    have hproc : processMessage mailbox domain now oid msg =
        .normalRecord (persistedRecord mailbox domain now oid msg b) := by
      rw [processMessage, if_neg (by simp [hfrom]),
        if_neg (by simp [hasBody, hbody]), persistMessage, hbody]
    exact ⟨persistedRecord mailbox domain now oid msg b, hproc,
      rfl, rfl, rfl, rfl, by rw [persistedRecord], rfl, rfl, rfl, rfl, rfl,
      rfl, rfl⟩

/-- Witness for C6 at a self-originated message and a regular message. -/
theorem fetcher_admission_witness :
    (processMessage sampleMailbox "dev.siasky.net" 3 1 selfMsg =
        .skipRecord (persistSkipMessage sampleMailbox 3 1 selfMsg)
      ∧ (persistSkipMessage sampleMailbox 3 1 selfMsg).skip = true
      ∧ (persistSkipMessage sampleMailbox 3 1 selfMsg).parsed = true
      ∧ (persistSkipMessage sampleMailbox 3 1 selfMsg).blocked = true
      ∧ (persistSkipMessage sampleMailbox 3 1 selfMsg).finalized = true)
    ∧ (∃ rec, processMessage sampleMailbox "dev.siasky.net" 3 2 sampleMsg =
          .normalRecord rec
        ∧ rec.skip = false ∧ rec.parsed = false ∧ rec.blocked = false
        ∧ rec.finalized = false
        ∧ rec.body = ("some body" : String).take mailMaxBodySize
        ∧ rec.uid = buildMessageUID sampleMailbox sampleMsg.uid
        ∧ rec.subject = (sampleMsg.envelope.map Envelope.subject).getD ""
        ∧ rec.messageID = (sampleMsg.envelope.map Envelope.messageId).getD ""
        ∧ rec.emailFrom = extractField "From" sampleMsg.envelope
        ∧ rec.emailReplyTo = extractField "ReplyTo" sampleMsg.envelope
        ∧ rec.emailTo = extractField "To" sampleMsg.envelope
        ∧ rec.insertedBy = "dev.siasky.net") :=
  ⟨(fetcher_admission sampleMailbox "dev.siasky.net" 3 1 selfMsg).1
      (Or.inl (by decide)),
   (fetcher_admission sampleMailbox "dev.siasky.net" 3 2 sampleMsg).2
      "some body" (by decide) rfl⟩

/-- C7: phase A (`/submit`) happens at most once per report record: a record
re-read as already filed triggers no call at all; a record with a persisted
report id skips phase A and goes straight to phase B with that id; a record
with a non-empty filed-err is not selected by `FindUnfiledReports`; and no
single `fileReport` run ever submits twice. -/
theorem reporter_single_submit (oracle : NCMECOracle) (now : Nat)
    (current r : NCMECReport) :
    (current.filed = false → r.reportID ≠ 0 →
      (fileReport oracle now current r).submits = 0
      ∧ (fileReport oracle now current r).finishedId = some r.reportID)
    ∧ (current.filed = true → (fileReport oracle now current r).submits = 0)
    ∧ (r.filedErr ≠ "" → findUnfiledReportsFilter r = false)
    ∧ (fileReport oracle now current r).submits ≤ 1 := by
  refine ⟨?_, ?_, ?_, ?_⟩
  · intro hcur hid
    rw [fileReport, if_neg (by simp [hcur]), if_pos hid]
    exact ⟨rfl, rfl⟩
  · intro hcur
    rw [fileReport, if_pos (by simp [hcur])]
  · intro herr
    simp [findUnfiledReportsFilter, beq_eq_false_iff_ne.mpr herr]
  · rw [fileReport]
    by_cases hcur : current.filed = true
    · rw [if_pos (by simp [hcur])]; exact Nat.zero_le 1
    · rw [if_neg (by simp_all)]
      by_cases hid : r.reportID ≠ 0
      · rw [if_pos hid]; exact Nat.zero_le 1
      · rw [if_neg hid]
        by_cases hopen : (openReport oracle now r).1 = 0
        · rw [if_pos hopen]
        · rw [if_neg hopen]

/-- Witness for C7 at an opened-but-unfinished record (the crash-recovery
state `filed=false, report-id=321`) and an errored record. -/
theorem reporter_single_submit_witness :
    ((fileReport sampleNCMECOracle 9 openedReport openedReport).submits = 0
      ∧ (fileReport sampleNCMECOracle 9 openedReport openedReport).finishedId
          = some openedReport.reportID)
    ∧ findUnfiledReportsFilter erroredReport = false
    ∧ (fileReport sampleNCMECOracle 9 openedReport openedReport).submits ≤ 1 :=
  ⟨(reporter_single_submit sampleNCMECOracle 9 openedReport openedReport).1
      rfl (by decide),
   (reporter_single_submit sampleNCMECOracle 9 openedReport erroredReport).2.2.1
      (by decide),
   (reporter_single_submit sampleNCMECOracle 9 openedReport openedReport).2.2.2⟩

/-- C8 counterexample: the parser's `parseEmail` performs no re-read and no
`parsed` check after acquiring the email lock: on a record whose `parsed`
flag is already true it still builds the report and writes the update
(changing the record), instead of skipping the email as the claim states. -/
theorem parser_no_recheck_under_lock :
    eParsedAlready.parsed = true
    ∧ parseEmail (.ok phishingReport) "dev.siasky.net" 5 eParsedAlready =
        .wrote { eParsedAlready with
          parsed := true, parsedAt := 5,
          parsedBy := "dev.siasky.net", parseResult := phishingReport }
    ∧ { eParsedAlready with
        parsed := true, parsedAt := 5,
        parsedBy := "dev.siasky.net", parseResult := phishingReport }
        ≠ eParsedAlready := by
  refine ⟨rfl, rfl, ?_⟩
  intro h
  have := congrArg AbuseEmail.parsedAt h
  simp [eParsedAlready] at this

/-- C8 (amended): only the reporter's build loop re-reads the record under
the lock and skips when `reported` is already true; the parser performs no
such double-check and unconditionally parses and writes the update whenever
building the report succeeds. -/
theorem reporter_build_recheck (buildInner : Except String (List NCMECReport))
    (now : Nat) (current e : AbuseEmail) (h : current.reported = true) :
    buildReportsForEmail buildInner now current e = .skipped
    ∧ (∀ (br : Except String AbuseReport) (domain : String) (now2 : Nat)
        (e2 : AbuseEmail) (rep : AbuseReport), br = .ok rep →
        parseEmail br domain now2 e2 =
          .wrote { e2 with
            parsed := true, parsedAt := now2,
            parsedBy := domain, parseResult := rep }) := by
  constructor
  · simp [buildReportsForEmail, h]
  · intro br domain now2 e2 rep hbr
    rw [hbr, parseEmail]

/-- Witness for C8 (amended) at a reported email and the sample report. -/
theorem reporter_build_recheck_witness :
    buildReportsForEmail (.ok []) 9 eCsamReported eCsamReported = .skipped
    ∧ (∀ (br : Except String AbuseReport) (domain : String) (now2 : Nat)
        (e2 : AbuseEmail) (rep : AbuseReport), br = .ok rep →
        parseEmail br domain now2 e2 =
          .wrote { e2 with
            parsed := true, parsedAt := now2,
            parsedBy := domain, parseResult := rep }) :=
  reporter_build_recheck (.ok []) 9 eCsamReported eCsamReported rfl

/-! ## Lemmas about `dedupe` -/

theorem mem_dedupeAux {x : String} :
    ∀ {l seen : List String}, x ∈ dedupeAux l seen → x ∈ l := by
  intro l
  induction l with
  | nil => intro seen h; simp [dedupeAux] at h
  | cons v rest ih =>
    intro seen h
    rw [dedupeAux] at h
    by_cases hc : seen.contains v
    · rw [if_pos hc] at h
      exact List.mem_cons_of_mem v (ih h)
    · rw [if_neg hc] at h
      rcases List.mem_cons.mp h with h | h
      · exact h ▸ List.mem_cons_self v rest
      · exact List.mem_cons_of_mem v (ih h)

theorem dedupeAux_nodup :
    ∀ (l seen : List String), (dedupeAux l seen).Nodup
      ∧ ∀ x ∈ dedupeAux l seen, seen.contains x = false := by
  intro l
  induction l with
  | nil => intro seen; simp [dedupeAux]
  | cons v rest ih =>
    intro seen
    rw [dedupeAux]
    by_cases hc : seen.contains v
    · rw [if_pos hc]
      exact ih seen
    · rw [if_neg hc]
      obtain ⟨ihn, ihs⟩ := ih (v :: seen)
      constructor
      · rw [List.nodup_cons]
        refine ⟨?_, ihn⟩
        intro hv
        have := ihs v hv
        simp [List.contains_cons] at this
      · intro x hx
        rcases List.mem_cons.mp hx with hx | hx
        · subst hx
          exact Bool.not_eq_true _ ▸ hc
        · have := ihs x hx
          rw [List.contains_cons] at this
          exact (Bool.or_eq_false_iff.mp this).2

theorem dedupe_nodup (l : List String) : (dedupe l).Nodup := by
  rw [dedupe]
  by_cases h : l.isEmpty
  · rw [if_pos h]
    rw [List.isEmpty_iff] at h
    simp [h]
  · rw [if_neg h]
    exact (dedupeAux_nodup l []).1

theorem mem_dedupe {x : String} {l : List String} (h : x ∈ dedupe l) : x ∈ l := by
  rw [dedupe] at h
  by_cases he : l.isEmpty
  · rwa [if_pos he] at h
  · rw [if_neg he] at h
    exact mem_dedupeAux h

theorem dedupeAux_eq_eraseDupsLoop :
    ∀ (l bs : List String), List.eraseDups.loop l bs = bs.reverse ++ dedupeAux l bs := by
  intro l
  induction l with
  | nil => intro bs; simp [List.eraseDups.loop, dedupeAux]
  | cons v rest ih =>
    intro bs
    rw [List.eraseDups.loop, dedupeAux]
    by_cases hc : bs.contains v
    · rw [if_pos hc]
      simp only [hc]
      exact ih bs
    · rw [if_neg hc]
      simp only [Bool.not_eq_true _ ▸ hc]
      rw [ih (v :: bs)]
      simp

theorem dedupe_eq_eraseDups (l : List String) : dedupe l = l.eraseDups := by
  rw [dedupe, List.eraseDups]
  by_cases h : l.isEmpty
  · rw [if_pos h]
    rw [List.isEmpty_iff] at h
    simp [h, List.eraseDups.loop]
  · rw [if_neg h, dedupeAux_eq_eraseDupsLoop]
    simp

theorem dedupeAux_quad :
    ∀ (L seen : List String), L.Nodup → (∀ t ∈ L, seen.contains t = false) →
      dedupeAux ((L.map (fun t => [t, t, t, t])).flatten) seen = L := by
  intro L
  induction L with
  | nil => intro seen _ _; simp [dedupeAux]
  | cons t rest ih =>
    intro seen hnd hseen
    have hts : seen.contains t = false := hseen t (List.mem_cons_self t rest)
    have htt : (t :: seen).contains t = true := by
      simp [List.contains_cons]
    simp only [List.map_cons, List.flatten_cons, List.cons_append, List.nil_append]
    rw [dedupeAux, if_neg (by intro hc; rw [hts] at hc; simp at hc)]
    rw [dedupeAux, if_pos htt, dedupeAux, if_pos htt, dedupeAux, if_pos htt]
    congr 1
    apply ih (t :: seen) (List.nodup_cons.mp hnd).2
    intro u hu
    rw [List.contains_cons]
    have hut : u ≠ t := by
      intro h
      exact (List.nodup_cons.mp hnd).1 (h ▸ hu)
    rw [beq_eq_false_iff_ne.mpr hut, hseen u (List.mem_cons_of_mem t hu)]
    rfl

theorem dedupe_quad (L : List String) (hnd : L.Nodup) :
    dedupe ((L.map (fun t => [t, t, t, t])).flatten) = L := by
  match L with
  | [] => rfl
  | t :: rest =>
    rw [dedupe]
    rw [if_neg (by simp)]
    exact dedupeAux_quad (t :: rest) [] hnd (by intro u _; rfl)

/-! ## Lemmas about the extraction matchers -/

theorem base64_char_facts {c : Char} (h : isBase64Char c = true) :
    c ≠ ':' ∧ c ≠ '.' ∧ c ≠ '\n' ∧ c ≠ '\r' ∧ isGoSpace c = false := by
  refine ⟨?_, ?_, ?_, ?_, ?_⟩
  · rintro rfl; exact absurd h (by decide)
  · rintro rfl; exact absurd h (by decide)
  · rintro rfl; exact absurd h (by decide)
  · rintro rfl; exact absurd h (by decide)
  · cases hg : isGoSpace c
    · rfl
    · exfalso
      simp only [isGoSpace, Bool.or_eq_true, beq_iff_eq] at hg
      rcases hg with ((((rfl | rfl) | rfl) | rfl) | rfl) <;> exact absurd h (by decide)

theorem isPrefixAt_scheme_false {l : List Char}
    (hall : ∀ c ∈ l, isBase64Char c = true) (a : Nat) :
    isPrefixAt schemeChars l a = false := by
  cases hp : isPrefixAt schemeChars l a
  · rfl
  · exfalso
    rw [isPrefixAt] at hp
    obtain ⟨t, ht⟩ := List.isPrefixOf_iff_prefix.mp hp
    have hcolon : ':' ∈ l.drop a := by
      rw [← ht]; simp [schemeChars]
    exact absurd (hall ':' (List.mem_of_mem_drop hcolon)) (by decide)

theorem tail64_eq_none {l : List Char} {j : Nat} (h : l.length < j + 46) :
    tail64 l j = none := by
  rw [tail64, if_neg]
  intro hc
  rw [Bool.and_eq_true, decide_eq_true_eq] at hc
  have hw : (window l j 46).length = min 46 (l.length - j) := by
    simp [window]
  omega

theorem tail32_eq_none {l : List Char} {j : Nat} (h : l.length < j + 55) :
    tail32 l j = none := by
  rw [tail32, if_neg]
  intro hc
  rw [Bool.and_eq_true, decide_eq_true_eq] at hc
  have hw : (window l j 55).length = min 55 (l.length - j) := by
    simp [window]
  omega

theorem alt2Try_eq_none {tail : List Char → Nat → Option (String × String × Nat)}
    {l : List Char} {i jlo : Nat} (h : ∀ j, jlo ≤ j → tail l j = none) :
    alt2Try tail l i jlo = none := by
  rw [alt2Try]
  apply findSome_none
  intro j hj
  rw [List.mem_reverse] at hj
  rw [h j (List.mem_range'_1.mp hj).1]

theorem tryMatch64RE_eq_none {l : List Char}
    (hall : ∀ c ∈ l, isBase64Char c = true) (i : Nat) :
    tryMatch64RE l i = none := by
  rw [tryMatch64RE]
  apply findSome_none
  intro a _
  rw [isPrefixAt_scheme_false hall a]
  simp

theorem tryMatch32RE_eq_none {l : List Char}
    (hall : ∀ c ∈ l, isBase64Char c = true) (i : Nat) :
    tryMatch32RE l i = none := by
  rw [tryMatch32RE]
  apply findSome_none
  intro a _
  rw [isPrefixAt_scheme_false hall a]
  simp

theorem tryMatch32RE2_eq_none {l : List Char} (h : l.length < 55) (i : Nat) :
    tryMatch32RE2 l i = none := by
  have h5 : alt2Try tail32 l i (i + 5) = none :=
    alt2Try_eq_none fun j _ => tail32_eq_none (by omega)
  have h2 : alt2Try tail32 l i (i + 2) = none :=
    alt2Try_eq_none fun j _ => tail32_eq_none (by omega)
  have h4 : alt2Try tail32 l i (i + 4) = none :=
    alt2Try_eq_none fun j _ => tail32_eq_none (by omega)
  have h0 : tail32 l 0 = none := tail32_eq_none (by omega)
  rw [tryMatch32RE2, h5, h2, h4, h0]
  simp

theorem tail64_canonical {l : List Char} (hlen : l.length = 46)
    (hall : ∀ c ∈ l, isBase64Char c = true) :
    tail64 l 0 = some (String.mk l, "", 46) := by
  have hw : window l 0 46 = l := by
    rw [window, List.drop_zero, ← hlen, List.take_length]
  rw [tail64, hw]
  rw [if_pos (by
    rw [Bool.and_eq_true, decide_eq_true_eq]
    exact ⟨hlen, List.all_eq_true.mpr hall⟩)]
  rw [if_pos (by omega)]

theorem tryMatch64RE2_canonical {l : List Char} (hlen : l.length = 46)
    (hall : ∀ c ∈ l, isBase64Char c = true) :
    tryMatch64RE2 l 0 = some (46, [String.mk l, "", String.mk l, ""]) := by
  have h5 : alt2Try tail64 l 0 (0 + 5) = none :=
    alt2Try_eq_none fun j hj => tail64_eq_none (by omega)
  have h2 : alt2Try tail64 l 0 (0 + 2) = none :=
    alt2Try_eq_none fun j hj => tail64_eq_none (by omega)
  have h4 : alt2Try tail64 l 0 (0 + 4) = none :=
    alt2Try_eq_none fun j hj => tail64_eq_none (by omega)
  have hw : window l 0 46 = l := by
    rw [window, List.drop_zero, ← hlen, List.take_length]
  rw [tryMatch64RE2, h5, h2, h4, tail64_canonical hlen hall]
  simp [hw]

theorem tryMatch64RE2_eq_none_pos {l : List Char} (hlen : l.length = 46)
    {i : Nat} (hi : i ≠ 0) : tryMatch64RE2 l i = none := by
  have h5 : alt2Try tail64 l i (i + 5) = none :=
    alt2Try_eq_none fun j hj => tail64_eq_none (by omega)
  have h2 : alt2Try tail64 l i (i + 2) = none :=
    alt2Try_eq_none fun j hj => tail64_eq_none (by omega)
  have h4 : alt2Try tail64 l i (i + 4) = none :=
    alt2Try_eq_none fun j hj => tail64_eq_none (by omega)
  rw [tryMatch64RE2, h5, h2, h4]
  simp [hi]

theorem findAllAux_succ (tryM : List Char → Nat → Option (Nat × List String))
    (l : List Char) (fuel pos : Nat) :
    findAllAux tryM l (fuel + 1) pos =
      match (List.range' pos (l.length + 1 - pos)).findSome?
          (fun i => (tryM l i).map (fun r => (i, r))) with
      | none => []
      | some (i, e, subs) =>
        subs :: findAllAux tryM l fuel (if i < e then e else i + 1) := rfl

theorem findAllAux_no_more {tryM : List Char → Nat → Option (Nat × List String)}
    {l : List Char} {pos : Nat} (h : ∀ i, pos ≤ i → tryM l i = none) :
    ∀ fuel, findAllAux tryM l fuel pos = [] := by
  intro fuel
  cases fuel with
  | zero => rfl
  | succ fuel =>
    rw [findAllAux_succ]
    rw [findSome_none _ _ ?_]
    intro i hi
    rw [h i (List.mem_range'_1.mp hi).1]
    rfl

theorem findAll_eq_nil {tryM : List Char → Nat → Option (Nat × List String)}
    {l : List Char} (h : ∀ i, tryM l i = none) : findAll tryM l = [] := by
  rw [findAll]
  exact findAllAux_no_more (fun i _ => h i) (l.length + 1)

theorem findAll64RE2_canonical {l : List Char} (hlen : l.length = 46)
    (hall : ∀ c ∈ l, isBase64Char c = true) :
    findAll tryMatch64RE2 l = [[String.mk l, "", String.mk l, ""]] := by
  rw [findAll, findAllAux_succ]
  have hr : List.range' 0 (l.length + 1 - 0) = 0 :: List.range' 1 l.length := by
    rw [Nat.sub_zero, List.range'_succ]
  rw [hr, List.findSome?_cons, tryMatch64RE2_canonical hlen hall]
  simp only [Option.map_some']
  have hrest : findAllAux tryMatch64RE2 l l.length (if 0 < 46 then 46 else 0 + 1) = [] := by
    rw [if_pos (by omega)]
    exact findAllAux_no_more
      (fun i hi => tryMatch64RE2_eq_none_pos hlen (by omega)) l.length
  rw [hrest]

theorem variantCandidates_canonical {l : List Char} (hlen : l.length = 46)
    (hall : ∀ c ∈ l, isBase64Char c = true) :
    variantCandidates l = [String.mk l, String.mk l] := by
  have hv : validOk (String.mk l) = true := by
    rw [validOk, Bool.or_eq_true]
    left
    rw [validateSkylink64, Bool.and_eq_true]
    constructor
    · show (l.length == 46) = true
      rw [hlen]
      decide
    · exact List.all_eq_true.mpr hall
  have hv0 : validOk "" = false := rfl
  rw [variantCandidates]
  rw [findAll_eq_nil (tryMatch64RE_eq_none hall),
      findAll64RE2_canonical hlen hall,
      findAll_eq_nil (tryMatch32RE_eq_none hall),
      findAll_eq_nil (tryMatch32RE2_eq_none (by omega))]
  simp [List.filter, hv, hv0]

theorem stripSpace_eq_self {l : List Char}
    (hall : ∀ c ∈ l, isBase64Char c = true) : stripSpace l = l :=
  List.filter_eq_self.mpr fun c hc => by
    rw [(base64_char_facts (hall c hc)).2.2.2.2]
    rfl

theorem lineCandidates_canonical {l : List Char} (hlen : l.length = 46)
    (hall : ∀ c ∈ l, isBase64Char c = true) :
    lineCandidates l = [String.mk l, String.mk l, String.mk l, String.mk l] := by
  rw [lineCandidates, stripSpace_eq_self hall, variantCandidates_canonical hlen hall]
  rfl

/-! ## Lemmas about line splitting -/

theorem finishLine_reverse {l : List Char} (h : '\r' ∉ l) :
    finishLine l.reverse = l := by
  rw [finishLine, if_neg, List.reverse_reverse]
  intro hc
  cases hrev : l.reverse with
  | nil => rw [hrev] at hc; cases hc
  | cons a t =>
    rw [hrev] at hc
    simp only [List.head?_cons, Option.some.injEq] at hc
    apply h
    rw [← List.mem_reverse, hrev, hc]
    exact List.mem_cons_self _ _

theorem splitLinesAux_no_newline :
    ∀ (l acc : List Char), '\n' ∉ l → (l = [] → acc ≠ []) →
      splitLinesAux l acc = [finishLine (l.reverse ++ acc)] := by
  intro l
  induction l with
  | nil =>
    intro acc _ hne
    rw [splitLinesAux, if_neg (by simpa using hne rfl)]
    simp
  | cons c rest ih =>
    intro acc hnl hne
    rw [splitLinesAux, if_neg (by
      intro hc
      exact hnl (hc ▸ List.mem_cons_self c rest))]
    rw [ih (c :: acc) (fun hm => hnl (List.mem_cons_of_mem c hm))
      (fun _ => List.cons_ne_nil c acc)]
    congr 1
    simp

theorem splitLinesAux_newline :
    ∀ (l1 : List Char), '\n' ∉ l1 → ∀ (rest acc : List Char),
      splitLinesAux (l1 ++ '\n' :: rest) acc =
        finishLine (l1.reverse ++ acc) :: splitLinesAux rest [] := by
  intro l1
  induction l1 with
  | nil =>
    intro _ rest acc
    rw [List.nil_append, splitLinesAux, if_pos rfl]
    simp
  | cons c l1' ih =>
    intro hnl rest acc
    rw [List.cons_append, splitLinesAux, if_neg (by
      intro hc
      exact hnl (hc ▸ List.mem_cons_self c l1'))]
    rw [ih (fun hm => hnl (List.mem_cons_of_mem c hm)) rest (c :: acc)]
    congr 2
    simp

theorem splitLines_joinLines :
    ∀ L : List String, (∀ t ∈ L, t.data ≠ [] ∧ '\n' ∉ t.data ∧ '\r' ∉ t.data) →
      splitLinesAux (joinLines L).data [] = L.map String.data := by
  intro L
  induction L with
  | nil => intro _; rfl
  | cons t rest ih =>
    intro h
    obtain ⟨hne, hnl, hnr⟩ := h t (List.mem_cons_self t rest)
    cases rest with
    | nil =>
      show splitLinesAux t.data [] = [t.data]
      rw [splitLinesAux_no_newline t.data [] hnl (fun hl => absurd hl hne)]
      rw [List.append_nil, finishLine_reverse hnr]
    | cons t2 rest2 =>
      show splitLinesAux (t ++ "\n" ++ joinLines (t2 :: rest2)).data [] = _
      have hdata : (t ++ "\n" ++ joinLines (t2 :: rest2)).data =
          t.data ++ '\n' :: (joinLines (t2 :: rest2)).data := by
        rw [String.data_append, String.data_append]
        simp
      rw [hdata, splitLinesAux_newline t.data hnl]
      rw [List.append_nil, finishLine_reverse hnr]
      rw [ih (fun u hu => h u (List.mem_cons_of_mem t hu))]
      rfl

/-! ## Assembling the extraction claim -/

theorem filterMap_canon_quad (canon : String → Option String) :
    ∀ L : List String, (∀ t ∈ L, canon t = some t) →
      ((L.map (fun t => [t, t, t, t])).flatten).filterMap canon
        = (L.map (fun t => [t, t, t, t])).flatten := by
  intro L
  induction L with
  | nil => intro _; rfl
  | cons t rest ih =>
    intro h
    have ht := h t (List.mem_cons_self t rest)
    simp only [List.map_cons, List.flatten_cons]
    rw [List.filterMap_append]
    rw [ih (fun u hu => h u (List.mem_cons_of_mem t hu))]
    congr 1
    simp [List.filterMap_cons, ht]

theorem canonical_data {canon : String → Option String} {t : String}
    (hc : CanonicalSkylink canon t) :
    t.data.length = 46 ∧ (∀ c ∈ t.data, isBase64Char c = true) := by
  obtain ⟨h46, hall, _⟩ := hc
  exact ⟨h46, List.all_eq_true.mp hall⟩

theorem extract_mem_canonical {canon : String → Option String}
    (hcanon : ∀ s t, canon s = some t → CanonicalSkylink canon t)
    (input : String) :
    ∀ t ∈ extractSkylinks canon input, CanonicalSkylink canon t := by
  intro t ht
  simp only [extractSkylinks] at ht
  obtain ⟨s, _, hs⟩ := List.mem_filterMap.mp (mem_dedupe ht)
  exact hcanon s t hs

theorem extract_joinLines {canon : String → Option String} (L : List String)
    (hc : ∀ t ∈ L, CanonicalSkylink canon t) (hnd : L.Nodup) :
    extractSkylinks canon (joinLines L) = L := by
  have hlines : splitLinesAux (joinLines L).data [] = L.map String.data := by
    apply splitLines_joinLines
    intro t ht
    obtain ⟨h46, hall⟩ := canonical_data (hc t ht)
    refine ⟨?_, ?_, ?_⟩
    · intro hnil
      rw [hnil] at h46
      cases h46
    · intro hm
      exact absurd (hall '\n' hm) (by decide)
    · intro hm
      exact absurd (hall '\r' hm) (by decide)
  have hcand : (List.map lineCandidates (L.map String.data)).flatten
      = (L.map (fun t => [t, t, t, t])).flatten := by
    congr 1
    rw [List.map_map]
    apply List.map_congr_left
    intro t ht
    obtain ⟨h46, hall⟩ := canonical_data (hc t ht)
    show lineCandidates t.data = [t, t, t, t]
    rw [lineCandidates_canonical h46 hall]
  simp only [extractSkylinks]
  rw [hlines, hcand, filterMap_canon_quad canon L (fun t ht => (hc t ht).2.2),
    dedupe_quad L hnd]

/-- C9: identifier extraction is idempotent and duplicate-free: feeding the
output of `extractSkylinks` back as a text with one identifier per line
extracts exactly the same list, the output has no duplicates, and `dedupe`
removes duplicates preserving first-seen order (it equals `List.eraseDups`).
The hypothesis states what the spec guarantees of the external
`skymodules.Skylink` canonicalizer: its outputs are canonical Form-A
identifiers that re-canonicalize to themselves. -/
theorem extractSkylinks_idempotent (canon : String → Option String)
    (hcanon : ∀ s t, canon s = some t → CanonicalSkylink canon t)
    (input : String) :
    extractSkylinks canon (joinLines (extractSkylinks canon input))
        = extractSkylinks canon input
    ∧ (extractSkylinks canon input).Nodup
    ∧ (∀ l : List String, dedupe l = l.eraseDups) := by
  have hmem := extract_mem_canonical hcanon input
  have hnd : (extractSkylinks canon input).Nodup := by
    simp only [extractSkylinks]
    exact dedupe_nodup _
  exact ⟨extract_joinLines _ hmem hnd, hnd, dedupe_eq_eraseDups⟩

theorem canonId_canonical :
    ∀ s t : String, canonId s = some t → CanonicalSkylink canonId t := by
  intro s t h
  rw [canonId] at h
  by_cases hv : validateSkylink64 s = true
  · rw [if_pos hv] at h
    rw [Option.some.injEq] at h
    subst h
    rw [validateSkylink64, Bool.and_eq_true] at hv
    refine ⟨by simpa using hv.1, hv.2, ?_⟩
    rw [canonId, if_pos]
    rw [validateSkylink64, Bool.and_eq_true]
    exact hv
  · rw [if_neg hv] at h
    cases h

/-- Witness for C9 at the validating identity canonicalizer and a concrete
input. -/
theorem extractSkylinks_idempotent_witness :
    extractSkylinks canonId (joinLines (extractSkylinks canonId sampleSkylink))
        = extractSkylinks canonId sampleSkylink
    ∧ (extractSkylinks canonId sampleSkylink).Nodup
    ∧ (∀ l : List String, dedupe l = l.eraseDups) :=
  extractSkylinks_idempotent canonId canonId_canonical sampleSkylink

end AbuseScanner
